import Mathlib

/-!
Verification of the ETL_UV pipeline's transformation core against its
specification.  The Python source (`test.py`, `main.py`) is shallowly
embedded: pandas Series/DataFrame values become Lean lists, Python's
dynamically typed cell values become the `PyValue` inductive type, and
fallible operations return `Option`.
-/

/-- A dynamically typed cell value, as held in a pandas object column:
a string, an int64, a float (modelled as a rational; NaN is `vnone`),
or a missing value (`None`/`NaN`). -/
inductive PyValue where
  | vstr (s : String)
  | vint (n : Int)
  | vfloat (q : Rat)
  | vnone
deriving DecidableEq, Repr

/-- A calendar date as produced by `datetime.strptime`. -/
structure PyDate where
  year : Nat
  month : Nat
  day : Nat
deriving DecidableEq, Repr

/-- `pandas.isna` on a cell value: true exactly on the missing value. -/
def pyIsNA : PyValue → Bool
  | PyValue.vnone => true
  | _ => false

/-! ## Column Normalizer (`clean_column_names`, test.py lines 45-53) -/

/-- `str.lower` restricted to ASCII, the alphabet of the column names
this pipeline manipulates: each basic latin capital letter maps to its
lower-case form, every other character is unchanged. -/
def pyLower : Char → Char
  | 'A' => 'a' | 'B' => 'b' | 'C' => 'c' | 'D' => 'd' | 'E' => 'e'
  | 'F' => 'f' | 'G' => 'g' | 'H' => 'h' | 'I' => 'i' | 'J' => 'j'
  | 'K' => 'k' | 'L' => 'l' | 'M' => 'm' | 'N' => 'n' | 'O' => 'o'
  | 'P' => 'p' | 'Q' => 'q' | 'R' => 'r' | 'S' => 's' | 'T' => 't'
  | 'U' => 'u' | 'V' => 'v' | 'W' => 'w' | 'X' => 'x' | 'Y' => 'y'
  | 'Z' => 'z'
  | c => c

/-- The `str.maketrans` table of `clean_column_names`:
`'-' ' ' '/' '\\'` map to `'_'`; `'$' '?' '%' ')' '('` are deleted;
every other character is kept. -/
def translateChar (c : Char) : Option Char :=
  if c = '-' ∨ c = ' ' ∨ c = '/' ∨ c = '\\' then some '_'
  else if c = '$' ∨ c = '?' ∨ c = '%' ∨ c = ')' ∨ c = '(' then none
  else some c

/-- One character of `col.lower().translate(transformations)`. -/
def normChar (c : Char) : Option Char := translateChar (pyLower c)

/-- `col.lower().translate(transformations)` for a whole column name. -/
def normalizeCol (s : String) : String := ⟨s.data.filterMap normChar⟩

/-- `clean_column_names`: normalizes every column name of every frame. -/
def clean_column_names (dataframes : List (List String)) : List (List String) :=
  dataframes.map (fun cols => cols.map normalizeCol)

/-! ## Date Parser (`parse_date`, test.py lines 59-69) -/

/-- ASCII decimal digit, the character class `\d` of the strptime regexes
(as instantiated on the ASCII date strings of this data set). -/
def isDigitC (c : Char) : Bool := decide ('0' ≤ c ∧ c ≤ '9')

/-- Digit in `[1-9]`. -/
def isDigit19 (c : Char) : Bool := decide ('1' ≤ c ∧ c ≤ '9')

/-- Numeric value of a digit string (the `int(...)` applied by strptime
to a matched group). -/
def natOfDigits (p : List Char) : Nat :=
  p.foldl (fun n c => 10 * n + (c.toNat - 48)) 0

/-- Splits a character list at every occurrence of the separator `c`;
the separators themselves are dropped.  Mirrors how a strptime format
whose directives cannot match the literal separator divides the input. -/
def splitOnChar (c : Char) : List Char → List (List Char)
  | [] => [[]]
  | a :: as =>
    if a = c then
      [] :: splitOnChar c as
    else
      match splitOnChar c as with
      | [] => [[a]]
      | p :: ps => (a :: p) :: ps

/-- Rejoins what `splitOnChar` separated. -/
def joinWithChar (c : Char) : List (List Char) → List Char
  | [] => []
  | [p] => p
  | p :: ps => p ++ c :: joinWithChar c ps

/-- Full match of the strptime directive `%m`
(regex `1[0-2]|0[1-9]|[1-9]`): one or two digits denoting 1..12. -/
def matchM (p : List Char) : Bool :=
  p.all isDigitC && decide (1 ≤ natOfDigits p) && decide (natOfDigits p ≤ 12) &&
    (decide (p.length = 1) || decide (p.length = 2))

/-- Full match of the strptime directive `%d`
(regex `3[01]|[12]\d|0[1-9]|[1-9]| [1-9]`): one or two digits denoting
1..31, or a space followed by a digit 1..9. -/
def matchD (p : List Char) : Bool :=
  (p.all isDigitC && decide (1 ≤ natOfDigits p) && decide (natOfDigits p ≤ 31) &&
    (decide (p.length = 1) || decide (p.length = 2))) ||
  (match p with
   | [' ', d] => isDigit19 d
   | _ => false)

/-- Full match of the strptime directive `%y` (regex `\d\d`). -/
def matchY2 (p : List Char) : Bool :=
  decide (p.length = 2) && p.all isDigitC

/-- Full match of the strptime directive `%Y` (regex `\d\d\d\d`). -/
def matchY4 (p : List Char) : Bool :=
  decide (p.length = 4) && p.all isDigitC

/-- The C-locale month abbreviations recognised by `%b`, lower-cased. -/
def monthAbbrs : List (List Char × Nat) :=
  [("jan".data, 1), ("feb".data, 2), ("mar".data, 3), ("apr".data, 4),
   ("may".data, 5), ("jun".data, 6), ("jul".data, 7), ("aug".data, 8),
   ("sep".data, 9), ("oct".data, 10), ("nov".data, 11), ("dec".data, 12)]

/-- Full, case-insensitive match of `%b`, returning the month number. -/
def monthAbbrNum (p : List Char) : Option Nat :=
  (monthAbbrs.find? (fun q => q.1 = p.map pyLower)).map Prod.snd

/-- Century completion applied by strptime to `%y`: 0..68 are 2000s,
69..99 are 1900s. -/
def yearFrom2 (yy : Nat) : Nat :=
  if yy < 69 then 2000 + yy else 1900 + yy

/-- Gregorian leap-year rule used by `datetime`. -/
def isLeapYear (y : Nat) : Bool :=
  y % 4 = 0 && (y % 100 ≠ 0 || y % 400 = 0)

/-- Length of a month as validated by the `datetime` constructor. -/
def daysInMonth (y m : Nat) : Nat :=
  if m = 2 then (if isLeapYear y then 29 else 28)
  else if m = 4 ∨ m = 6 ∨ m = 9 ∨ m = 11 then 30
  else 31

/-- The bounds checks of the `datetime(year, month, day)` constructor. -/
def validDate (y m d : Nat) : Bool :=
  decide (1 ≤ y) && decide (y ≤ 9999) && decide (1 ≤ m) && decide (m ≤ 12) &&
    decide (1 ≤ d) && decide (d ≤ daysInMonth y m)

/-- `datetime.strptime(s, "%m/%d/%y")`: the directives match no `'/'`,
so the string splits at the two literal slashes. -/
def parseMDY (s : String) : Option PyDate :=
  match splitOnChar '/' s.data with
  | [p1, p2, p3] =>
    if matchM p1 && matchD p2 && matchY2 p3 then
      let y := yearFrom2 (natOfDigits p3)
      let m := natOfDigits p1
      let d := natOfDigits (p2.filter isDigitC)
      if validDate y m d then some ⟨y, m, d⟩ else none
    else none
  | _ => none

/-- `datetime.strptime(s, "%d-%b-%y")`. -/
def parseDBY (s : String) : Option PyDate :=
  match splitOnChar '-' s.data with
  | [p1, p2, p3] =>
    match monthAbbrNum p2 with
    | some m =>
      if matchD p1 && matchY2 p3 then
        let y := yearFrom2 (natOfDigits p3)
        let d := natOfDigits (p1.filter isDigitC)
        if validDate y m d then some ⟨y, m, d⟩ else none
      else none
    | none => none
  | _ => none

/-- `datetime.strptime(s, "%Y-%m-%d")`. -/
def parseYMD (s : String) : Option PyDate :=
  match splitOnChar '-' s.data with
  | [p1, p2, p3] =>
    if matchY4 p1 && matchM p2 && matchD p3 then
      let y := natOfDigits p1
      let m := natOfDigits p2
      let d := natOfDigits (p3.filter isDigitC)
      if validDate y m d then some ⟨y, m, d⟩ else none
    else none
  | _ => none

/-- `DATE_FORMATS` from test.py line 15. -/
def DATE_FORMATS : List String := ["%m/%d/%y", "%d-%b-%y", "%Y-%m-%d"]

/-- `datetime.strptime(s, fmt)` for the three configured formats. -/
def strptimeModel (fmt : String) (s : String) : Option PyDate :=
  if fmt = "%m/%d/%y" then parseMDY s
  else if fmt = "%d-%b-%y" then parseDBY s
  else if fmt = "%Y-%m-%d" then parseYMD s
  else none

/-- The `for fmt in DATE_FORMATS` loop of `parse_date`: first successful
format wins, a `ValueError` moves on to the next format. -/
def tryFormatsList (fmts : List String) (s : String) : Option PyDate :=
  match fmts with
  | [] => none
  | f :: fs =>
    match strptimeModel f s with
    | some d => some d
    | none => tryFormatsList fs s

/-- Python `str.strip()` on the whitespace alphabet of this data. -/
def pyStrip (s : String) : String :=
  ⟨((s.data.dropWhile Char.isWhitespace).reverse.dropWhile Char.isWhitespace).reverse⟩

/-- `parse_date` (test.py lines 59-69).  The input is `none` for a
missing value (`pd.isna`), otherwise the raw string.  `fallback` models
`pd.to_datetime(date_str, errors='coerce')`, the permissive parser that
yields `none` (NaT) instead of raising. -/
def parse_date (fallback : String → Option PyDate) : Option String → Option PyDate
  | none => none
  | some s =>
    if s = "Pre-PQ Process" ∨ s = "Date Not Captured" ∨ s = "" then none
    else
      match tryFormatsList DATE_FORMATS (pyStrip s) with
      | some d => some d
      | none => fallback (pyStrip s)

/-! ## Data model: the selected columns of one record (test.py lines 16-24) -/

/-- One row of the frame `df = dataframes[0][SELECTED_COLUMNS]`:
the `id` column is int64, the three date columns have been converted by
`convert_date_columns`, and the remaining columns hold dynamically
typed cell values. -/
structure ScmsRow where
  id : Int
  country : PyValue
  shipment_mode : PyValue
  scheduled_delivery_date : Option PyDate
  delivered_to_client_date : Option PyDate
  delivery_recorded_date : Option PyDate
  product_group : PyValue
  sub_classification : PyValue
  vendor : PyValue
  item_description : PyValue
  molecule_test_type : PyValue
  brand : PyValue
  dosage : PyValue
  dosage_form : PyValue
  line_item_quantity : PyValue
  line_item_value : PyValue
  unit_price : PyValue
  weight_kilograms : PyValue
  freight_cost_usd : PyValue
  line_item_insurance_usd : PyValue
deriving DecidableEq, Repr

/-! ## Reference Resolver (`resolve_id_reference`, test.py lines 80-90) -/

/-- `re.match(ID_PATTERN, s)` with `ID_PATTERN = r":\d+"`: `re.match`
anchors at position 0, so it succeeds exactly when the string starts
with a colon followed by at least one digit. -/
def reMatchId (s : String) : Bool :=
  match s.data with
  | ':' :: c :: _ => isDigitC c
  | _ => false

/-- `re.search(ID_PATTERN, s).group().replace(":", "")` in the branch
where `re.match` already succeeded: the leftmost match starts at
position 0, so this is the maximal digit run after the leading colon. -/
def extractDigits (s : String) : List Char :=
  (s.data.drop 1).takeWhile isDigitC

/-- `resolve_id_reference(value, dataset, column)`: non-strings and
strings not starting with the `:digits` pattern are returned unchanged;
otherwise the first row whose `id` equals the extracted integer supplies
the requested column's value, and a lookup miss returns the original
string. -/
def resolve_id_reference (value : PyValue) (dataset : List ScmsRow)
    (column : ScmsRow → PyValue) : PyValue :=
  match value with
  | PyValue.vstr s =>
    if reMatchId s then
      match dataset.filter (fun r => decide (r.id = (natOfDigits (extractDigits s) : Int))) with
      | [] => PyValue.vstr s
      | r :: _ => column r
    else PyValue.vstr s
  | v => v

/-- Modelled from the spec: the claim's reading of the reference
pattern, "a colon followed by one or more digits appearing anywhere in
the string" (the semantics `re.search` would have). -/
def specContainsIdPatternAux : List Char → Bool
  | ':' :: d :: rest => isDigitC d || specContainsIdPatternAux (d :: rest)
  | _ :: rest => specContainsIdPatternAux rest
  | [] => false

/-- Modelled from the spec: `:digits` occurs somewhere in the string. -/
def specContainsIdPattern (s : String) : Bool :=
  specContainsIdPatternAux s.data

/-! ## Step 5 of `main` (main.py lines 20-24): per-column resolution
and the `astype(float, errors='ignore')` cast -/

/-- Python `float(str)` on the simple decimal forms occurring in this
data set: optional sign, integer digits, optional fractional digits,
and the special value `nan`; anything else (including exponent and
infinity forms, which this data never contains) fails. -/
def parseUnsignedFloat (cs : List Char) : Option Rat :=
  let intPart := cs.takeWhile isDigitC
  let rest := cs.drop intPart.length
  match rest with
  | [] => if intPart.isEmpty then none else some (natOfDigits intPart)
  | '.' :: frac =>
    let fracD := frac.takeWhile isDigitC
    let rest2 := frac.drop fracD.length
    if rest2.isEmpty then
      if intPart.isEmpty ∧ fracD.isEmpty then none
      else some ((natOfDigits intPart : Rat) +
        (natOfDigits fracD : Rat) / ((10 : Rat) ^ fracD.length))
    else none
  | _ => none

/-- `float(s)` for a string cell, as used by `Series.astype(float)`:
`none` models the `ValueError` raised on a non-numeric string. -/
def pyFloatOfString (s : String) : Option PyValue :=
  let t := (pyStrip s).data.map pyLower
  if t = "nan".data ∨ t = "+nan".data ∨ t = "-nan".data then some PyValue.vnone
  else
    match t with
    | '+' :: rest => (parseUnsignedFloat rest).map PyValue.vfloat
    | '-' :: rest => (parseUnsignedFloat rest).map (fun q => PyValue.vfloat (-q))
    | rest => (parseUnsignedFloat rest).map PyValue.vfloat

/-- Casting one cell to float64; `none` is the `ValueError` case. -/
def tryCastFloat : PyValue → Option PyValue
  | PyValue.vstr s => pyFloatOfString s
  | PyValue.vint n => some (PyValue.vfloat n)
  | PyValue.vfloat q => some (PyValue.vfloat q)
  | PyValue.vnone => some PyValue.vnone

/-- All-or-nothing traversal: `some` of the list of results when every
element converts, `none` as soon as any element fails. -/
def optionTraverse {α β : Type} (f : α → Option β) : List α → Option (List β)
  | [] => some []
  | a :: as =>
    match f a with
    | none => none
    | some b => (optionTraverse f as).map (fun bs => b :: bs)

/-- `Series.astype(float, errors='ignore')`: the cast is attempted on
the whole column; if converting any single cell raises, the original
column is returned unchanged. -/
def seriesAstypeFloatIgnore (vs : List PyValue) : List PyValue :=
  match optionTraverse tryCastFloat vs with
  | some ws => ws
  | none => vs

/-- Decimal rendering of a float, for `astype(str)`. -/
def floatRepr (q : Rat) : String :=
  match (List.range 30).find? (fun k => decide ((q * (10 : Rat) ^ k).den = 1)) with
  | some 0 => toString q.num ++ ".0"
  | some k =>
    let n := (q.num.natAbs * 10 ^ k) / q.den
    let ip := n / 10 ^ k
    let fp := n % 10 ^ k
    let fpStr := toString fp
    let pad := String.mk (List.replicate (k - fpStr.length) '0')
    (if q.num < 0 then "-" else "") ++ toString ip ++ "." ++ pad ++ fpStr
  | none => toString q.num ++ "d" ++ toString q.den

/-- Python `str(value)`, as applied by `df[col].astype(str)`
(a missing value prints as `"nan"`). -/
def pyStr : PyValue → String
  | PyValue.vstr s => s
  | PyValue.vint n => toString n
  | PyValue.vfloat q => floatRepr q
  | PyValue.vnone => "nan"

/-- One iteration of the step-5 loop of `main` for one of the columns
`freight_cost_usd` / `weight_kilograms`:
`df[col].astype(str).apply(lambda x: resolve_id_reference(x, dataset, col)).astype(float, errors='ignore')`. -/
def resolveColumnStep (dataset : List ScmsRow) (column : ScmsRow → PyValue)
    (values : List PyValue) : List PyValue :=
  seriesAstypeFloatIgnore
    (values.map (fun v => resolve_id_reference (PyValue.vstr (pyStr v)) dataset column))

/-! ## Step 6 of `main` (main.py lines 26-28):
`df.dropna(subset=["shipment_mode", "line_item_insurance_usd"])` -/

/-- The cleaning step: a row is kept exactly when both `shipment_mode`
and `line_item_insurance_usd` are present. -/
def dropnaStep (rows : List ScmsRow) : List ScmsRow :=
  rows.filter (fun r => !(pyIsNA r.shipment_mode) && !(pyIsNA r.line_item_insurance_usd))

/-! ## Dimension Extractor (`create_dimension_tables`, test.py 208-247) -/

/-- `DataFrame.drop_duplicates()` on a projected column list: removes
later duplicates, keeping the first occurrence of each value. -/
def dedupFirst {α : Type} [DecidableEq α] : List α → List α
  | [] => []
  | a :: as => a :: (dedupFirst as).filter (fun b => decide (b ≠ a))

/-- `drop_duplicates().reset_index(drop=True)` followed by
`table["x_id"] = table.index + 1`: each distinct value paired with its
1-based position. -/
def mkDim {α : Type} [DecidableEq α] (proj : List α) : List (α × Nat) :=
  (dedupFirst proj).enum.map (fun p => (p.2, p.1 + 1))

/-- `left.merge(right, left_on=…, right_on=…, how="left")`: every left
row is emitted once per matching right row, or once with no match. -/
def leftJoin {A B K : Type} [DecidableEq K] (left : List A) (right : List B)
    (lk : A → K) (rk : B → K) : List (A × Option B) :=
  left.flatMap (fun a =>
    match right.filter (fun b => decide (rk b = lk a)) with
    | [] => [(a, none)]
    | ms => ms.map (fun b => (a, some b)))

/-- The natural key of the products dimension: the 7-tuple of
categorical product columns. -/
abbrev Prod7 : Type :=
  PyValue × PyValue × PyValue × PyValue × PyValue × PyValue × PyValue

set_option synthInstance.maxSize 512 in
instance : DecidableEq Prod7 :=
  inferInstanceAs (DecidableEq (PyValue × PyValue × PyValue × PyValue × PyValue × PyValue × PyValue))

/-- Projection of a row onto the products natural key. -/
def prodKey (r : ScmsRow) : Prod7 :=
  (r.product_group, r.sub_classification, r.item_description,
   r.molecule_test_type, r.brand, r.dosage, r.dosage_form)

/-- One row of the final fact frame (`final_columns`, test.py 239-244). -/
structure FactRow where
  delivery_id : Int
  country_id : Option Nat
  mode_id : Option Nat
  scheduled_delivery_date : Option PyDate
  delivered_to_client_date : Option PyDate
  delivery_recorded_date : Option PyDate
  product_id : Option Nat
  vendor_id : Option Nat
  line_item_quantity : PyValue
  line_item_value : PyValue
  unit_price : PyValue
  weight_kilograms : PyValue
  freight_cost_usd : PyValue
  line_item_insurance_usd : PyValue
deriving DecidableEq, Repr

/-- The five frames returned by `create_dimension_tables`. -/
structure DimResult where
  fact : List FactRow
  countries : List (PyValue × Nat)
  vendors : List (PyValue × Nat)
  transport_modes : List (PyValue × Nat)
  products : List (Prod7 × Nat)

/-- `create_dimension_tables(df)`: builds the four deduplicated
dimension frames, left-merges their surrogate keys onto the fact rows
by natural key, renames `id` to `delivery_id` and keeps the
`final_columns`. -/
def create_dimension_tables (df : List ScmsRow) : DimResult :=
  let countries := mkDim (df.map (fun r => r.country))
  let vendors := mkDim (df.map (fun r => r.vendor))
  let transport_modes := mkDim (df.map (fun r => r.shipment_mode))
  let products := mkDim (df.map prodKey)
  let j1 := leftJoin df countries (fun r => r.country) Prod.fst
  let j2 := leftJoin j1 vendors (fun x => x.1.vendor) Prod.fst
  let j3 := leftJoin j2 transport_modes (fun x => x.1.1.shipment_mode) Prod.fst
  let j4 := leftJoin j3 products (fun x => prodKey x.1.1.1) Prod.fst
  let fact := j4.map (fun x =>
    { delivery_id := x.1.1.1.1.id
      country_id := x.1.1.1.2.map Prod.snd
      mode_id := x.1.2.map Prod.snd
      scheduled_delivery_date := x.1.1.1.1.scheduled_delivery_date
      delivered_to_client_date := x.1.1.1.1.delivered_to_client_date
      delivery_recorded_date := x.1.1.1.1.delivery_recorded_date
      product_id := x.2.map Prod.snd
      vendor_id := x.1.1.2.map Prod.snd
      line_item_quantity := x.1.1.1.1.line_item_quantity
      line_item_value := x.1.1.1.1.line_item_value
      unit_price := x.1.1.1.1.unit_price
      weight_kilograms := x.1.1.1.1.weight_kilograms
      freight_cost_usd := x.1.1.1.1.freight_cost_usd
      line_item_insurance_usd := x.1.1.1.1.line_item_insurance_usd : FactRow })
  ⟨fact, countries, vendors, transport_modes, products⟩

/-- Modelled from the spec: the contract of a dimension table ("the
count of surrogate keys equals the count of distinct natural-key
combinations in the input, and keys are a contiguous range starting at
1", assigned "per remaining row, in that order" after removing
"duplicate combinations, preserving first-occurrence order").
The key column is a duplicate-free covering sublist of the input that
is strictly sorted by the index of FIRST occurrence in the input
(`List.indexOf` returns the first-occurrence index): together these
determine the key column uniquely as the distinct input combinations
in first-appearance order, and the surrogate column pairs the k-th of
them with key k. -/
def dimensionSpec {α : Type} [DecidableEq α] (dim : List (α × Nat)) (proj : List α) : Prop :=
  (dim.map Prod.fst).Sublist proj ∧
  (dim.map Prod.fst).Nodup ∧
  (∀ a, a ∈ proj ↔ a ∈ dim.map Prod.fst) ∧
  (dim.map Prod.fst).Pairwise (fun a b => proj.indexOf a < proj.indexOf b) ∧
  dim.length = proj.toFinset.card ∧
  dim.map Prod.snd = List.range' 1 dim.length

/-! ## Persistence Layer (`create_table`, test.py lines 139-180) -/

/-- The `column_types` dtype-to-SQL map of `create_table`. -/
def column_types : List (String × String) :=
  [("int64", "BIGINT"), ("float64", "DOUBLE PRECISION"),
   ("datetime64[ns]", "TIMESTAMP"), ("object", "TEXT"), ("bool", "BOOLEAN")]

/-- `column_types.get(str(dtype), 'TEXT')`. -/
def pgTypeOf (dtype : String) : String :=
  ((column_types.find? (fun p => decide (p.1 = dtype))).map Prod.snd).getD "TEXT"

/-- The declaration `create_table` emits for one column: the f-string
of the matching branch of its `if` / `elif` / `else` chain. -/
def mkColumnDef (table_name col dtype : String) : String :=
  let pg_type := pgTypeOf dtype
  if table_name = "deliveries" ∧ col = "delivery_id" then
    col ++ " " ++ pg_type ++ " NOT NULL PRIMARY KEY"
  else if table_name ≠ "deliveries" ∧ col.endsWith "_id" then
    col ++ " " ++ pg_type ++ " NOT NULL PRIMARY KEY"
  else
    col ++ " " ++ pg_type

/-- The `columns_def` list built by `create_table` from the frame's
(name, dtype) pairs, before foreign keys are appended. -/
def create_table_columns_def (table_name : String) (dtypes : List (String × String)) : List String :=
  dtypes.map (fun p => mkColumnDef table_name p.1 p.2)

/-! ## Concrete sample data for witnesses and counterexamples -/

/-- A sample cleaned record, with `id = 100` and
`weight_kilograms = 250.5` as in the spec's testable properties. -/
def sampleRow : ScmsRow where
  id := 100
  country := PyValue.vstr "Vietnam"
  shipment_mode := PyValue.vstr "Air"
  scheduled_delivery_date := none
  delivered_to_client_date := none
  delivery_recorded_date := none
  product_group := PyValue.vstr "ARV"
  sub_classification := PyValue.vstr "Adult"
  vendor := PyValue.vstr "ACME"
  item_description := PyValue.vstr "item"
  molecule_test_type := PyValue.vstr "mol"
  brand := PyValue.vstr "Generic"
  dosage := PyValue.vstr "10mg"
  dosage_form := PyValue.vstr "Tablet"
  line_item_quantity := PyValue.vint 1000
  line_item_value := PyValue.vfloat 5000
  unit_price := PyValue.vfloat 5
  weight_kilograms := PyValue.vfloat (501 / 2)
  freight_cost_usd := PyValue.vstr ":73"
  line_item_insurance_usd := PyValue.vfloat 47

/-- A sample record with `id = 1`, used to exhibit a lookup target. -/
def sampleRow1 : ScmsRow := { sampleRow with id := 1 }

theorem pyLower_idem (c : Char) : pyLower (pyLower c) = pyLower c := by
  have h : pyLower c = c ∨ pyLower c ∈ "abcdefghijklmnopqrstuvwxyz".data := by
    unfold pyLower
    split
    all_goals first
      | (right; decide)
      | (left; rfl)
  rcases h with h | h
  · rw [h, h]
  · have hfix : ∀ x ∈ "abcdefghijklmnopqrstuvwxyz".data, pyLower x = x := by decide
    rw [hfix _ h]

theorem normChar_fix {c c' : Char} (h : normChar c = some c') : normChar c' = some c' := by
  unfold normChar translateChar at h
  split at h
  · injection h with h2
    subst h2
    decide
  · split at h
    · exact absurd h (by simp)
    · rename_i h1 h2
      injection h with h3
      subst h3
      unfold normChar translateChar
      rw [pyLower_idem]
      rw [if_neg h1, if_neg h2]

theorem filterMap_normChar_idem (l : List Char) :
    (l.filterMap normChar).filterMap normChar = l.filterMap normChar := by
  induction l with
  | nil => rfl
  | cons a as ih =>
    cases h : normChar a with
    | none => simp [List.filterMap_cons, h, ih]
    | some c' => simp [List.filterMap_cons, h, normChar_fix h, ih]

/-- C7.  Column-name normalization is idempotent: applying
`col.lower().translate(transformations)` to an already-normalized name
yields the same name, both per column name and for the whole
`clean_column_names` pass. -/
theorem claim_c7 :
    (∀ col : String, normalizeCol (normalizeCol col) = normalizeCol col) ∧
    (∀ dfs : List (List String),
      clean_column_names (clean_column_names dfs) = clean_column_names dfs) := by
  have hone : ∀ col : String, normalizeCol (normalizeCol col) = normalizeCol col := by
    intro col
    unfold normalizeCol
    exact congrArg String.mk (filterMap_normChar_idem col.data)
  refine ⟨hone, ?_⟩
  intro dfs
  unfold clean_column_names
  rw [List.map_map]
  apply List.map_congr_left
  intro cols _
  simp only [Function.comp_apply]
  rw [List.map_map]
  apply List.map_congr_left
  intro c _
  exact hone c

/-- C8.  In the `CREATE TABLE` column declarations built by
`create_table`, a column is declared `NOT NULL PRIMARY KEY` exactly when
the table is the fact table `"deliveries"` and the column is literally
`"delivery_id"`, or the table is a dimension table and the column name
ends in `"_id"`; every other column is declared as a bare
`name type` pair. -/
theorem claim_c8 (table_name col dtype : String) :
    (mkColumnDef table_name col dtype =
        col ++ " " ++ pgTypeOf dtype ++ " NOT NULL PRIMARY KEY" ↔
      ((table_name = "deliveries" ∧ col = "delivery_id") ∨
       (table_name ≠ "deliveries" ∧ col.endsWith "_id" = true))) ∧
    (mkColumnDef table_name col dtype = col ++ " " ++ pgTypeOf dtype ↔
      ¬((table_name = "deliveries" ∧ col = "delivery_id") ∨
        (table_name ≠ "deliveries" ∧ col.endsWith "_id" = true))) := by
  have hne : ∀ t : String,
      ¬(col ++ " " ++ t ++ " NOT NULL PRIMARY KEY" = col ++ " " ++ t) := by
    intro t h
    have h2 := congrArg String.length h
    simp only [String.length_append] at h2
    have h3 : (" NOT NULL PRIMARY KEY" : String).length = 21 := by decide
    omega
  unfold mkColumnDef
  split
  · rename_i h1
    refine ⟨⟨fun _ => Or.inl h1, fun _ => rfl⟩, ⟨fun h => absurd h (hne _), ?_⟩⟩
    intro h
    exact absurd (Or.inl h1) h
  · split
    · rename_i h1 h2
      refine ⟨⟨fun _ => Or.inr h2, fun _ => rfl⟩, ⟨fun h => absurd h (hne _), ?_⟩⟩
      intro h
      exact absurd (Or.inr h2) h
    · rename_i h1 h2
      refine ⟨⟨fun h => absurd h.symm (hne _), ?_⟩, ⟨fun _ => ?_, fun _ => rfl⟩⟩
      · rintro (h | h)
        · exact absurd h h1
        · exact absurd h h2
      · rintro (h | h)
        · exact absurd h h1
        · exact absurd h h2

/-- C9.  The cleaning step of the pipeline
(`df.dropna(subset=["shipment_mode", "line_item_insurance_usd"])`)
keeps a row exactly when both `shipment_mode` and
`line_item_insurance_usd` are present; rows with either value missing
are excluded. -/
theorem claim_c9 (rows : List ScmsRow) (r : ScmsRow) :
    r ∈ dropnaStep rows ↔
      (r ∈ rows ∧ pyIsNA r.shipment_mode = false ∧
        pyIsNA r.line_item_insurance_usd = false) := by
  unfold dropnaStep
  rw [List.mem_filter]
  simp [Bool.and_eq_true, Bool.not_eq_true']

/-- C6.  A reference-pattern string whose extracted identifier matches
no row's `id` is returned unchanged by `resolve_id_reference`, and no
exception escapes (the function is total and takes the miss branch). -/
theorem claim_c6 (s : String) (ds : List ScmsRow) (column : ScmsRow → PyValue)
    (hmatch : reMatchId s = true)
    (hmiss : ∀ r ∈ ds, r.id ≠ (natOfDigits (extractDigits s) : Int)) :
    resolve_id_reference (PyValue.vstr s) ds column = PyValue.vstr s := by
  unfold resolve_id_reference
  have hfil : ds.filter (fun r => decide (r.id = (natOfDigits (extractDigits s) : Int))) = [] := by
    rw [List.filter_eq_nil_iff]
    intro r hr
    simpa using hmiss r hr
  simp [hmatch, hfil]

/-- Witness for C6: resolving `":999"` against a record set whose only
row has `id = 100` returns the literal string `":999"`. -/
theorem claim_c6_witness :
    reMatchId ":999" = true ∧
    (∀ r ∈ [sampleRow], r.id ≠ (natOfDigits (extractDigits ":999") : Int)) ∧
    resolve_id_reference (PyValue.vstr ":999") [sampleRow]
      (fun r => r.weight_kilograms) = PyValue.vstr ":999" :=
  ⟨by decide, by decide,
    claim_c6 ":999" [sampleRow] (fun r => r.weight_kilograms) (by decide) (by decide)⟩

/-- C1, amended.  `resolve_id_reference` attempts resolution exactly
when the value is text and the `:digits` pattern occurs at the START of
the string (`re.match` anchors at position 0): a non-string value, or a
string without the pattern as a prefix, is returned unchanged; a string
with the pattern as a prefix resolves to the matching row's column
value when the looked-up row exists. -/
theorem claim_c1 (v : PyValue) (ds : List ScmsRow) (column : ScmsRow → PyValue) :
    ((∀ s, v = PyValue.vstr s → reMatchId s = false) →
      resolve_id_reference v ds column = v) ∧
    (∀ s r, v = PyValue.vstr s → reMatchId s = true →
      (ds.filter (fun row => decide (row.id = (natOfDigits (extractDigits s) : Int)))).head? = some r →
      resolve_id_reference v ds column = column r) := by
  constructor
  · intro h
    cases v with
    | vstr s =>
      have hs := h s rfl
      unfold resolve_id_reference
      simp [hs]
    | vint n => rfl
    | vfloat q => rfl
    | vnone => rfl
  · intro s r hv hm hh
    subst hv
    unfold resolve_id_reference
    cases hfil : ds.filter (fun row => decide (row.id = (natOfDigits (extractDigits s) : Int))) with
    | nil => rw [hfil] at hh; exact absurd hh (by simp)
    | cons r0 rest =>
      rw [hfil] at hh
      simp only [List.head?_cons, Option.some.injEq] at hh
      subst hh
      simp [hm, hfil]

/-- Witness for C1 (amended): resolving `":100"` against a set whose
row 100 carries `weight_kilograms = 250.5` yields that weight. -/
theorem claim_c1_witness :
    reMatchId ":100" = true ∧
    resolve_id_reference (PyValue.vstr ":100") [sampleRow]
      (fun r => r.weight_kilograms) = PyValue.vfloat (501 / 2) :=
  ⟨by decide,
    (claim_c1 (PyValue.vstr ":100") [sampleRow] (fun r => r.weight_kilograms)).2
      ":100" sampleRow rfl (by decide) rfl⟩

/-- Counterexample to C1 as stated: in `"x:1"` the pattern `:1` appears
(at position 1) and a row with `id = 1` exists whose column value
differs, yet `resolve_id_reference` returns the string unchanged —
`re.match` anchors at the start, so no resolution is attempted on a
pattern that appears only later in the string. -/
theorem claim_c1_counterexample :
    specContainsIdPattern "x:1" = true ∧
    reMatchId "x:1" = false ∧
    resolve_id_reference (PyValue.vstr "x:1") [sampleRow1]
      (fun r => r.weight_kilograms) = PyValue.vstr "x:1" ∧
    PyValue.vstr "x:1" ≠ sampleRow1.weight_kilograms :=
  ⟨by decide, by decide, by decide, by decide⟩

theorem optionTraverse_eq_none {α β : Type} (f : α → Option β) (l : List α)
    (h : ∃ v ∈ l, f v = none) : optionTraverse f l = none := by
  induction l with
  | nil =>
    rcases h with ⟨v, hv, _⟩
    cases hv
  | cons a as ih =>
    rcases h with ⟨v, hv, hf⟩
    rcases List.mem_cons.mp hv with rfl | hv'
    · simp [optionTraverse, hf]
    · unfold optionTraverse
      cases hfa : f a with
      | none => rfl
      | some b => rw [ih ⟨v, hv', hf⟩]; rfl

/-- C3, amended.  In the resolution step of `main`, the numeric
coercion `astype(float, errors='ignore')` is per-COLUMN, not
per-value: if any resolved value of the column fails the cast, the
whole column (castable values included) keeps the resolved strings;
only when every value casts does the column become numeric. -/
theorem claim_c3 (ds : List ScmsRow) (column : ScmsRow → PyValue) (values : List PyValue) :
    ((∃ v ∈ values.map (fun v => resolve_id_reference (PyValue.vstr (pyStr v)) ds column),
        tryCastFloat v = none) →
      resolveColumnStep ds column values =
        values.map (fun v => resolve_id_reference (PyValue.vstr (pyStr v)) ds column)) ∧
    (∀ w, optionTraverse tryCastFloat
        (values.map (fun v => resolve_id_reference (PyValue.vstr (pyStr v)) ds column)) = some w →
      resolveColumnStep ds column values = w) := by
  constructor
  · intro h
    unfold resolveColumnStep seriesAstypeFloatIgnore
    rw [optionTraverse_eq_none _ _ h]
  · intro w h
    unfold resolveColumnStep seriesAstypeFloatIgnore
    rw [h]

/-- Witness for C3 (amended): with `"abc"` failing the cast, the column
`["7", "abc"]` comes out entirely unconverted. -/
theorem claim_c3_witness :
    tryCastFloat (PyValue.vstr "abc") = none ∧
    resolveColumnStep [] (fun r => r.freight_cost_usd)
      [PyValue.vstr "7", PyValue.vstr "abc"] = [PyValue.vstr "7", PyValue.vstr "abc"] :=
  ⟨by decide,
    ((claim_c3 [] (fun r => r.freight_cost_usd)
        [PyValue.vstr "7", PyValue.vstr "abc"]).1
      ⟨PyValue.vstr "abc", by decide, by decide⟩).trans (by decide)⟩

/-- Counterexample to C3 as stated: in the column `["15", "abc"]` the
value `"15"` casts to a float on its own, yet after the resolution step
it is still the string `"15"` — `astype(float, errors='ignore')`
abandons the conversion of the whole column when any one value fails. -/
theorem claim_c3_counterexample :
    resolveColumnStep [] (fun r => r.freight_cost_usd)
      [PyValue.vstr "15", PyValue.vstr "abc"] =
      [PyValue.vstr "15", PyValue.vstr "abc"] ∧
    tryCastFloat (PyValue.vstr "15") = some (PyValue.vfloat 15) ∧
    PyValue.vstr "15" ≠ PyValue.vfloat 15 :=
  ⟨by decide, by decide, by decide⟩

/-- C4.  `parse_date` is total (it returns a value for every input
instead of raising): a missing input, the empty string, the two
sentinel strings, and any string on which all three formats and the
permissive fallback parser fail, all yield the absent value. -/
theorem claim_c4 (fallback : String → Option PyDate) :
    parse_date fallback none = none ∧
    parse_date fallback (some "") = none ∧
    parse_date fallback (some "Pre-PQ Process") = none ∧
    parse_date fallback (some "Date Not Captured") = none ∧
    (∀ s, tryFormatsList DATE_FORMATS (pyStrip s) = none →
      fallback (pyStrip s) = none → parse_date fallback (some s) = none) := by
  refine ⟨rfl, by simp [parse_date], by simp [parse_date], by simp [parse_date], ?_⟩
  intro s h1 h2
  simp only [parse_date]
  split
  · rfl
  · rw [h1]
    exact h2

/-- Witness for C4: a plain word is parsed by no format, and with a
failing fallback `parse_date` yields absent rather than an error. -/
theorem claim_c4_witness :
    tryFormatsList DATE_FORMATS (pyStrip "hello world") = none ∧
    parse_date (fun _ => none) (some "hello world") = none :=
  ⟨by decide,
    (claim_c4 (fun _ => none)).2.2.2.2 "hello world" (by decide) rfl⟩

theorem splitOnChar_ne_nil (c : Char) (l : List Char) : splitOnChar c l ≠ [] := by
  cases l with
  | nil => simp [splitOnChar]
  | cons a as =>
    unfold splitOnChar
    split
    · simp
    · split
      · simp
      · simp

theorem joinWithChar_splitOnChar (c : Char) (l : List Char) :
    joinWithChar c (splitOnChar c l) = l := by
  induction l with
  | nil => rfl
  | cons a as ih =>
    unfold splitOnChar
    by_cases hac : a = c
    · rw [if_pos hac]
      cases hs : splitOnChar c as with
      | nil => exact absurd hs (splitOnChar_ne_nil c as)
      | cons p ps =>
        rw [hs] at ih
        subst hac
        simpa [joinWithChar] using ih
    · rw [if_neg hac]
      cases hs : splitOnChar c as with
      | nil => exact absurd hs (splitOnChar_ne_nil c as)
      | cons p ps =>
        rw [hs] at ih
        cases ps with
        | nil =>
          simpa [joinWithChar] using congrArg (a :: ·) ih
        | cons q qs =>
          simpa [joinWithChar] using congrArg (a :: ·) ih

theorem splitOnChar_of_not_mem (c : Char) (l : List Char) (h : c ∉ l) :
    splitOnChar c l = [l] := by
  induction l with
  | nil => rfl
  | cons a as ih =>
    have hac : ¬(a = c) := fun hh => h (hh ▸ List.mem_cons_self a as)
    have has : c ∉ as := fun hh => h (List.mem_cons_of_mem a hh)
    unfold splitOnChar
    rw [if_neg hac, ih has]

theorem matchM_digits {p : List Char} (h : matchM p = true) :
    ∀ c ∈ p, isDigitC c = true := by
  unfold matchM at h
  simp only [Bool.and_eq_true] at h
  exact fun c hc => List.all_eq_true.mp h.1.1.1 c hc

theorem matchY2_digits {p : List Char} (h : matchY2 p = true) :
    ∀ c ∈ p, isDigitC c = true := by
  unfold matchY2 at h
  simp only [Bool.and_eq_true] at h
  exact fun c hc => List.all_eq_true.mp h.2 c hc

theorem matchD_chars {p : List Char} (h : matchD p = true) :
    ∀ c ∈ p, isDigitC c = true ∨ c = ' ' := by
  unfold matchD at h
  rw [Bool.or_eq_true] at h
  rcases h with h | h
  · simp only [Bool.and_eq_true] at h
    exact fun c hc => Or.inl (List.all_eq_true.mp h.1.1.1 c hc)
  · split at h
    · rename_i d
      intro c hc
      rcases List.mem_cons.mp hc with rfl | hc2
      · exact Or.inr rfl
      · rcases List.mem_cons.mp hc2 with rfl | hc3
        · left
          have hd := of_decide_eq_true h
          exact decide_eq_true ⟨le_trans (by decide) hd.1, hd.2⟩
        · cases hc3
    · cases h

theorem matchD_length {p : List Char} (h : matchD p = true) : p.length ≤ 2 := by
  unfold matchD at h
  rw [Bool.or_eq_true] at h
  rcases h with h | h
  · simp only [Bool.and_eq_true, Bool.or_eq_true, decide_eq_true_eq] at h
    rcases h.2 with h2 | h2 <;> omega
  · split at h
    · simp
    · cases h

theorem matchY4_length {p : List Char} (h : matchY4 p = true) : p.length = 4 := by
  unfold matchY4 at h
  simp only [Bool.and_eq_true, decide_eq_true_eq] at h
  exact h.1

theorem parseMDY_no_dash {s : String} {d : PyDate} (h : parseMDY s = some d) :
    '-' ∉ s.data := by
  unfold parseMDY at h
  split at h
  · rename_i p1 p2 p3 heq
    split at h
    · rename_i hcond
      simp only [Bool.and_eq_true] at hcond
      obtain ⟨⟨hm, hd⟩, hy⟩ := hcond
      intro hmem
      have hjoin := joinWithChar_splitOnChar '/' s.data
      rw [heq] at hjoin
      have hshape : s.data = p1 ++ '/' :: (p2 ++ '/' :: p3) := by
        rw [← hjoin]
        rfl
      rw [hshape] at hmem
      simp only [List.mem_append, List.mem_cons] at hmem
      rcases hmem with h1 | h1 | h1 | h1 | h1
      · exact absurd (matchM_digits hm '-' h1) (by decide)
      · cases h1
      · rcases matchD_chars hd '-' h1 with h2 | h2
        · exact absurd h2 (by decide)
        · cases h2
      · cases h1
      · exact absurd (matchY2_digits hy '-' h1) (by decide)
    · cases h
  · cases h

theorem parseMDY_parseDBY {s : String} {d : PyDate} (h : parseMDY s = some d) :
    parseDBY s = none := by
  unfold parseDBY
  rw [splitOnChar_of_not_mem '-' s.data (parseMDY_no_dash h)]

theorem parseMDY_parseYMD {s : String} {d : PyDate} (h : parseMDY s = some d) :
    parseYMD s = none := by
  unfold parseYMD
  rw [splitOnChar_of_not_mem '-' s.data (parseMDY_no_dash h)]

theorem parseDBY_parseYMD {s : String} {d1 d2 : PyDate}
    (h1 : parseDBY s = some d1) (h2 : parseYMD s = some d2) : False := by
  unfold parseDBY at h1
  unfold parseYMD at h2
  split at h1
  · rename_i p1 p2 p3 heq1
    split at h2
    · rename_i q1 q2 q3 heq2
      rw [heq1] at heq2
      injection heq2 with e1 erest
      injection erest with e2 erest2
      split at h1
      · split at h1
        · rename_i hcond1
          split at h2
          · rename_i hcond2
            simp only [Bool.and_eq_true] at hcond1 hcond2
            have hl1 : p1.length ≤ 2 := matchD_length hcond1.1
            have hl2 : q1.length = 4 := matchY4_length hcond2.1.1
            rw [← e1] at hl2
            omega
          · cases h2
        · cases h1
      · cases h1
    · cases h2
  · cases h1

/-- C5.  No date string is parsed to two different calendar dates by two
of the three configured formats: a string accepted by `"%m/%d/%y"`
contains slashes and is rejected by the dash formats, and no string is
accepted by both `"%d-%b-%y"` and `"%Y-%m-%d"` (their first fields have
incompatible widths), so the first-match-wins order of `DATE_FORMATS`
cannot change the resulting date. -/
theorem claim_c5 (f1 f2 s : String) (d1 d2 : PyDate)
    (hf1 : f1 ∈ DATE_FORMATS) (hf2 : f2 ∈ DATE_FORMATS)
    (h1 : strptimeModel f1 s = some d1) (h2 : strptimeModel f2 s = some d2) :
    d1 = d2 := by
  have e1 : strptimeModel "%m/%d/%y" s = parseMDY s := by
    unfold strptimeModel
    rw [if_pos rfl]
  have e2 : strptimeModel "%d-%b-%y" s = parseDBY s := by
    unfold strptimeModel
    rw [if_neg (by decide), if_pos rfl]
  have e3 : strptimeModel "%Y-%m-%d" s = parseYMD s := by
    unfold strptimeModel
    rw [if_neg (by decide), if_neg (by decide), if_pos rfl]
  simp only [DATE_FORMATS, List.mem_cons, List.not_mem_nil, or_false] at hf1 hf2
  rcases hf1 with rfl | rfl | rfl
  · rcases hf2 with rfl | rfl | rfl
    · rw [e1] at h1 h2
      exact Option.some.inj (h1.symm.trans h2)
    · rw [e1] at h1
      rw [e2, parseMDY_parseDBY h1] at h2
      cases h2
    · rw [e1] at h1
      rw [e3, parseMDY_parseYMD h1] at h2
      cases h2
  · rcases hf2 with rfl | rfl | rfl
    · rw [e1] at h2
      rw [e2, parseMDY_parseDBY h2] at h1
      cases h1
    · rw [e2] at h1 h2
      exact Option.some.inj (h1.symm.trans h2)
    · rw [e2] at h1
      rw [e3] at h2
      exact (parseDBY_parseYMD h1 h2).elim
  · rcases hf2 with rfl | rfl | rfl
    · rw [e1] at h2
      rw [e3, parseMDY_parseYMD h2] at h1
      cases h1
    · rw [e2] at h2
      rw [e3] at h1
      exact (parseDBY_parseYMD h2 h1).elim
    · rw [e3] at h1 h2
      exact Option.some.inj (h1.symm.trans h2)

/-- Witness for C5: `"1/2/20"` is parsed by `"%m/%d/%y"` to
January 2, 2020, and the theorem applies to that match. -/
theorem claim_c5_witness :
    ("%m/%d/%y" ∈ DATE_FORMATS ∧
      strptimeModel "%m/%d/%y" "1/2/20" = some ⟨2020, 1, 2⟩) ∧
    (⟨2020, 1, 2⟩ : PyDate) = ⟨2020, 1, 2⟩ :=
  ⟨⟨by decide, by decide⟩,
    claim_c5 "%m/%d/%y" "%m/%d/%y" "1/2/20" ⟨2020, 1, 2⟩ ⟨2020, 1, 2⟩
      (by decide) (by decide) (by decide) (by decide)⟩

theorem dedupFirst_sublist {α : Type} [DecidableEq α] (l : List α) :
    (dedupFirst l).Sublist l := by
  induction l with
  | nil => exact List.Sublist.refl []
  | cons a as ih =>
    unfold dedupFirst
    exact List.Sublist.cons₂ a (List.Sublist.trans (List.filter_sublist _) ih)

theorem dedupFirst_nodup {α : Type} [DecidableEq α] (l : List α) :
    (dedupFirst l).Nodup := by
  induction l with
  | nil => exact List.nodup_nil
  | cons a as ih =>
    unfold dedupFirst
    rw [List.nodup_cons]
    constructor
    · intro hmem
      have := List.of_mem_filter hmem
      simp at this
    · exact List.Nodup.filter _ ih

theorem mem_dedupFirst {α : Type} [DecidableEq α] {l : List α} {a : α} :
    a ∈ dedupFirst l ↔ a ∈ l := by
  induction l with
  | nil => rfl
  | cons b as ih =>
    unfold dedupFirst
    rw [List.mem_cons, List.mem_cons]
    by_cases hab : a = b
    · simp [hab]
    · simp only [List.mem_filter, decide_eq_true_eq]
      constructor
      · rintro (rfl | ⟨hmem, _⟩)
        · exact Or.inl rfl
        · exact Or.inr (ih.mp hmem)
      · rintro (rfl | hmem)
        · exact Or.inl rfl
        · exact Or.inr ⟨ih.mpr hmem, hab⟩

theorem dedupFirst_length {α : Type} [DecidableEq α] (l : List α) :
    (dedupFirst l).length = l.toFinset.card := by
  have hset : (dedupFirst l).toFinset = l.toFinset := by
    apply Finset.ext
    intro a
    simp [List.mem_toFinset, mem_dedupFirst]
  rw [← hset]
  exact (List.toFinset_card_of_nodup (dedupFirst_nodup l)).symm

theorem mkDim_fst {α : Type} [DecidableEq α] (proj : List α) :
    (mkDim proj).map Prod.fst = dedupFirst proj := by
  unfold mkDim
  rw [List.map_map]
  exact List.enum_map_snd (dedupFirst proj)

theorem mkDim_length {α : Type} [DecidableEq α] (proj : List α) :
    (mkDim proj).length = (dedupFirst proj).length := by
  unfold mkDim
  rw [List.length_map, List.enum_length]

theorem mkDim_snd {α : Type} [DecidableEq α] (proj : List α) :
    (mkDim proj).map Prod.snd = List.range' 1 (mkDim proj).length := by
  rw [mkDim_length]
  unfold mkDim
  rw [List.map_map]
  have h1 : (Prod.snd ∘ fun p : Nat × α => (p.2, p.1 + 1)) =
      (fun n => n + 1) ∘ Prod.fst := rfl
  rw [h1, ← List.map_map, List.enum_map_fst, List.range'_eq_map_range]
  apply List.map_congr_left
  intro n _
  exact Nat.add_comm n 1

theorem dedupFirst_pairwise_indexOf {α : Type} [DecidableEq α] (l : List α) :
    (dedupFirst l).Pairwise (fun a b => l.indexOf a < l.indexOf b) := by
  induction l with
  | nil => exact List.Pairwise.nil
  | cons a as ih =>
    unfold dedupFirst
    rw [List.pairwise_cons]
    constructor
    · intro b hb
      have hne : a ≠ b := by
        have := (List.mem_filter.mp hb).2
        simp only [decide_eq_true_eq] at this
        exact fun h => this h.symm
      rw [List.indexOf_cons_self, List.indexOf_cons_ne as hne]
      omega
    · have hpf : ((dedupFirst as).filter (fun b => decide (b ≠ a))).Pairwise
          (fun x y => as.indexOf x < as.indexOf y) :=
        List.Pairwise.filter _ ih
      apply List.Pairwise.imp_of_mem ?_ hpf
      intro x y hx hy hxy
      have hnx : a ≠ x := by
        have := (List.mem_filter.mp hx).2
        simp only [decide_eq_true_eq] at this
        exact fun h => this h.symm
      have hny : a ≠ y := by
        have := (List.mem_filter.mp hy).2
        simp only [decide_eq_true_eq] at this
        exact fun h => this h.symm
      rw [List.indexOf_cons_ne as hnx, List.indexOf_cons_ne as hny]
      omega

theorem mkDim_dimensionSpec {α : Type} [DecidableEq α] (proj : List α) :
    dimensionSpec (mkDim proj) proj := by
  unfold dimensionSpec
  rw [mkDim_fst]
  exact ⟨dedupFirst_sublist proj, dedupFirst_nodup proj,
    fun a => mem_dedupFirst.symm,
    dedupFirst_pairwise_indexOf proj,
    (mkDim_length proj).trans (dedupFirst_length proj),
    mkDim_snd proj⟩

/-- C2.  Each of the four dimension tables built by
`create_dimension_tables` satisfies the dimension contract: its key
column is exactly the distinct natural-key combinations of the input in
first-appearance order (a duplicate-free sublist covering all input
combinations, strictly sorted by index of first occurrence in the
input, which determines it uniquely), its length is the number of
distinct combinations, and its surrogate keys are the contiguous range
1..n in order, so key k is paired with the k-th distinct combination
in first-appearance order. -/
theorem claim_c2 (df : List ScmsRow) :
    dimensionSpec (create_dimension_tables df).countries (df.map (fun r => r.country)) ∧
    dimensionSpec (create_dimension_tables df).vendors (df.map (fun r => r.vendor)) ∧
    dimensionSpec (create_dimension_tables df).transport_modes
      (df.map (fun r => r.shipment_mode)) ∧
    dimensionSpec (create_dimension_tables df).products (df.map prodKey) :=
  ⟨mkDim_dimensionSpec _, mkDim_dimensionSpec _, mkDim_dimensionSpec _,
    mkDim_dimensionSpec _⟩

theorem filter_eq_single_of_nodup {B K : Type} [DecidableEq K] (right : List B)
    (rk : B → K) (k : K) (hnd : (right.map rk).Nodup) (hmem : k ∈ right.map rk) :
    ∃ b, right.filter (fun b => decide (rk b = k)) = [b] := by
  induction right with
  | nil => cases hmem
  | cons b rest ih =>
    rw [List.map_cons, List.nodup_cons] at hnd
    rw [List.map_cons] at hmem
    by_cases hbk : rk b = k
    · refine ⟨b, ?_⟩
      rw [List.filter_cons_of_pos (by simp [hbk])]
      have hnil : rest.filter (fun x => decide (rk x = k)) = [] := by
        rw [List.filter_eq_nil_iff]
        intro x hx
        simp only [decide_eq_true_eq]
        intro hxk
        have hmx : rk x ∈ rest.map rk := List.mem_map_of_mem rk hx
        rw [hxk, ← hbk] at hmx
        exact hnd.1 hmx
      rw [hnil]
    · rw [List.filter_cons_of_neg (by simp [hbk])]
      apply ih hnd.2
      rcases List.mem_cons.mp hmem with h | h
      · exact absurd h.symm hbk
      · exact h

theorem leftJoin_eq_map {A B K : Type} [DecidableEq K] (left : List A) (right : List B)
    (lk : A → K) (rk : B → K)
    (hcov : ∀ a ∈ left, ∃ b, right.filter (fun b => decide (rk b = lk a)) = [b]) :
    leftJoin left right lk rk =
      left.map (fun a => (a, (right.filter (fun b => decide (rk b = lk a))).head?)) := by
  induction left with
  | nil => rfl
  | cons a l ih =>
    have hrest := ih (fun x hx => hcov x (List.mem_cons_of_mem a hx))
    obtain ⟨b, hb⟩ := hcov a (List.mem_cons_self a l)
    unfold leftJoin at hrest ⊢
    simp only [List.flatMap_cons, List.map_cons]
    rw [hb, hrest]
    rfl

theorem leftJoin_map_eq {A B K : Type} [DecidableEq K] (left : List A) (right : List B)
    (lk : A → K) (rk : B → K) (hnd : (right.map rk).Nodup)
    (hcovk : ∀ a ∈ left, lk a ∈ right.map rk) :
    leftJoin left right lk rk =
      left.map (fun a => (a, (right.filter (fun b => decide (rk b = lk a))).head?)) :=
  leftJoin_eq_map left right lk rk
    (fun a ha => filter_eq_single_of_nodup right rk (lk a) hnd (hcovk a ha))

/-- C10.  `create_dimension_tables` preserves the fact rows: the fact
frame has exactly one row per input row in the same order, each row
keeping the input row's delivery identifier (`id` renamed to
`delivery_id`), its three date fields and its numeric measure fields
unchanged; only the categorical text columns are replaced by
surrogate-key columns. -/
theorem claim_c10 (df : List ScmsRow) :
    (create_dimension_tables df).fact.map (fun fr =>
        (fr.delivery_id, fr.scheduled_delivery_date, fr.delivered_to_client_date,
         fr.delivery_recorded_date, fr.line_item_quantity, fr.line_item_value,
         fr.unit_price, fr.weight_kilograms, fr.freight_cost_usd,
         fr.line_item_insurance_usd)) =
      df.map (fun r =>
        (r.id, r.scheduled_delivery_date, r.delivered_to_client_date,
         r.delivery_recorded_date, r.line_item_quantity, r.line_item_value,
         r.unit_price, r.weight_kilograms, r.freight_cost_usd,
         r.line_item_insurance_usd)) ∧
    (create_dimension_tables df).fact.length = df.length := by
  have h1 : leftJoin df (mkDim (df.map (fun r => r.country)))
        (fun r => r.country) Prod.fst =
      df.map (fun r => (r, ((mkDim (df.map (fun r => r.country))).filter
        (fun b => decide (b.1 = r.country))).head?)) := by
    apply leftJoin_map_eq
    · rw [mkDim_fst]
      exact dedupFirst_nodup _
    · intro r hr
      rw [mkDim_fst]
      exact mem_dedupFirst.mpr (List.mem_map_of_mem _ hr)
  have h2 : leftJoin
        (df.map (fun r => (r, ((mkDim (df.map (fun r => r.country))).filter
          (fun b => decide (b.1 = r.country))).head?)))
        (mkDim (df.map (fun r => r.vendor))) (fun x => x.1.vendor) Prod.fst =
      (df.map (fun r => (r, ((mkDim (df.map (fun r => r.country))).filter
          (fun b => decide (b.1 = r.country))).head?))).map
        (fun x => (x, ((mkDim (df.map (fun r => r.vendor))).filter
          (fun b => decide (b.1 = x.1.vendor))).head?)) := by
    apply leftJoin_map_eq
    · rw [mkDim_fst]
      exact dedupFirst_nodup _
    · intro x hx
      rw [mkDim_fst]
      obtain ⟨r, hr, rfl⟩ := List.mem_map.mp hx
      exact mem_dedupFirst.mpr (List.mem_map_of_mem _ hr)
  have h3 : leftJoin
        ((df.map (fun r => (r, ((mkDim (df.map (fun r => r.country))).filter
          (fun b => decide (b.1 = r.country))).head?))).map
          (fun x => (x, ((mkDim (df.map (fun r => r.vendor))).filter
            (fun b => decide (b.1 = x.1.vendor))).head?)))
        (mkDim (df.map (fun r => r.shipment_mode)))
        (fun x => x.1.1.shipment_mode) Prod.fst =
      ((df.map (fun r => (r, ((mkDim (df.map (fun r => r.country))).filter
          (fun b => decide (b.1 = r.country))).head?))).map
          (fun x => (x, ((mkDim (df.map (fun r => r.vendor))).filter
            (fun b => decide (b.1 = x.1.vendor))).head?))).map
        (fun x => (x, ((mkDim (df.map (fun r => r.shipment_mode))).filter
          (fun b => decide (b.1 = x.1.1.shipment_mode))).head?)) := by
    apply leftJoin_map_eq
    · rw [mkDim_fst]
      exact dedupFirst_nodup _
    · intro x hx
      rw [mkDim_fst]
      obtain ⟨y, hy, rfl⟩ := List.mem_map.mp hx
      obtain ⟨r, hr, rfl⟩ := List.mem_map.mp hy
      exact mem_dedupFirst.mpr (List.mem_map_of_mem _ hr)
  have h4 : leftJoin
        (((df.map (fun r => (r, ((mkDim (df.map (fun r => r.country))).filter
          (fun b => decide (b.1 = r.country))).head?))).map
          (fun x => (x, ((mkDim (df.map (fun r => r.vendor))).filter
            (fun b => decide (b.1 = x.1.vendor))).head?))).map
          (fun x => (x, ((mkDim (df.map (fun r => r.shipment_mode))).filter
            (fun b => decide (b.1 = x.1.1.shipment_mode))).head?)))
        (mkDim (df.map prodKey)) (fun x => prodKey x.1.1.1) Prod.fst =
      ((((df.map (fun r => (r, ((mkDim (df.map (fun r => r.country))).filter
          (fun b => decide (b.1 = r.country))).head?))).map
          (fun x => (x, ((mkDim (df.map (fun r => r.vendor))).filter
            (fun b => decide (b.1 = x.1.vendor))).head?))).map
          (fun x => (x, ((mkDim (df.map (fun r => r.shipment_mode))).filter
            (fun b => decide (b.1 = x.1.1.shipment_mode))).head?)))).map
        (fun x => (x, ((mkDim (df.map prodKey)).filter
          (fun b => decide (b.1 = prodKey x.1.1.1))).head?)) := by
    apply leftJoin_map_eq
    · rw [mkDim_fst]
      exact dedupFirst_nodup _
    · intro x hx
      rw [mkDim_fst]
      obtain ⟨z, hz, rfl⟩ := List.mem_map.mp hx
      obtain ⟨y, hy, rfl⟩ := List.mem_map.mp hz
      obtain ⟨r, hr, rfl⟩ := List.mem_map.mp hy
      exact mem_dedupFirst.mpr (List.mem_map_of_mem _ hr)
  have hmap : (create_dimension_tables df).fact.map (fun fr =>
        (fr.delivery_id, fr.scheduled_delivery_date, fr.delivered_to_client_date,
         fr.delivery_recorded_date, fr.line_item_quantity, fr.line_item_value,
         fr.unit_price, fr.weight_kilograms, fr.freight_cost_usd,
         fr.line_item_insurance_usd)) =
      df.map (fun r =>
        (r.id, r.scheduled_delivery_date, r.delivered_to_client_date,
         r.delivery_recorded_date, r.line_item_quantity, r.line_item_value,
         r.unit_price, r.weight_kilograms, r.freight_cost_usd,
         r.line_item_insurance_usd)) := by
    simp only [create_dimension_tables]
    rw [h1, h2, h3, h4]
    simp only [List.map_map]
    rfl
  refine ⟨hmap, ?_⟩
  have hlen := congrArg List.length hmap
  simpa using hlen
